import Mathlib

/-!
Shallow embedding of the traffic scheduler and traffic bot core of the
`trafficbot` repository (`src/modules/traffic_scheduler.py`,
`src/modules/traffic_bot.py`), together with theorems settling the frozen
claims about it.

Conventions of the embedding:
* Python `datetime` values are modelled by the record `DateTime` below, which
  stores exactly the observations the scheduler makes of a datetime: an
  absolute day number (`absDay`, with day 0 a Monday so that
  `weekday = absDay % 7` matches Python's Monday=0 convention), the time of
  day, and the `month` / `dayOfMonth` projections used by the rollover code.
* Python float division plus `math.ceil` is modelled by exact rational
  division in `ℚ` plus `Int.ceil`.  Python raises `ZeroDivisionError` where
  the divisor is zero; in `ℚ` division by zero yields `0`, so every theorem
  that exercises a division carries positivity hypotheses that keep the
  embedding on the non-raising paths of the source.
* Python dict insertion (`d[k] = v`: update in place keeping the original
  position if the key exists, else append) is modelled by `dictInsert`.
* `random.randint` draws are modelled by an explicit stream `rng : Nat → Nat`
  threaded into `calculate_schedule` (used only by the `"random"` mode).
-/

namespace Traffic

/-- Model of the observations the scheduler makes of a Python `datetime`:
`absDay` is the number of days since an epoch Monday, `month`/`dayOfMonth`
mirror `dt.month` / `dt.day`. -/
structure DateTime where
  absDay : Nat
  hour : Nat
  minute : Nat
  second : Nat
  month : Nat
  dayOfMonth : Nat
deriving DecidableEq, Repr

/-- Total seconds since the epoch; Python datetimes compare by this value. -/
def DateTime.toSeconds (dt : DateTime) : Nat :=
  dt.absDay * 86400 + dt.hour * 3600 + dt.minute * 60 + dt.second

/-- `dt.weekday()` with Monday = 0 (epoch day 0 is a Monday). -/
def DateTime.weekday (dt : DateTime) : Nat := dt.absDay % 7

/-- `(e - s).days` of Python `timedelta`: floor of the difference in days. -/
def daysBetween (e s : DateTime) : Int :=
  Int.fdiv ((e.toSeconds : Int) - (s.toSeconds : Int)) 86400

/-- A bucket key: the pair (calendar date, hour).  The source uses the string
`day.strftime('%Y-%m-%d') + f'-{hour}'`; dates and the string date part are in
bijection, so the pair `(absDay, hour)` is a faithful injective encoding. -/
abbrev HourKey := Nat × Nat

/-- The four target fields of `self.target_visits`. -/
structure Targets where
  hourly : Int
  daily : Int
  monthly : Int
  total : Int
deriving DecidableEq, Repr

/-- State of `TrafficScheduler` (fields of `__init__`, lines 14-39). -/
structure Scheduler where
  targets : Targets
  start_date : Option DateTime
  end_date : Option DateTime
  active_hours : List Nat
  active_days : List Nat
  schedule_mode : String
  hourly_visits : Nat
  daily_visits : Nat
  monthly_visits : Nat
  total_visits : Nat
  last_hour : Option Nat
  last_day : Option Nat
  last_month : Option Nat
  hourly_targets : List (HourKey × Int)
deriving DecidableEq, Repr

/-- `TrafficScheduler.__init__` defaults. -/
def initScheduler : Scheduler where
  targets := ⟨0, 0, 0, 0⟩
  start_date := none
  end_date := none
  active_hours := List.range 24
  active_days := List.range 7
  schedule_mode := "even"
  hourly_visits := 0
  daily_visits := 0
  monthly_visits := 0
  total_visits := 0
  last_hour := none
  last_day := none
  last_month := none
  hourly_targets := []

/-- Python dict assignment `m[k] = v`: if the key is present, replace its
value in place (keeping its position); otherwise append at the end. -/
def dictInsert (m : List (HourKey × Int)) (k : HourKey) (v : Int) :
    List (HourKey × Int) :=
  if m.any (fun p => p.1 = k) then
    m.map (fun p => if p.1 = k then (k, v) else p)
  else m ++ [(k, v)]

/-- Build a dict from a sequence of assignments, in order. -/
def dictOf (pairs : List (HourKey × Int)) : List (HourKey × Int) :=
  pairs.foldl (fun m p => dictInsert m p.1 p.2) []

/-- Dict lookup (`m[k]` / `k in m`): keys built via `dictInsert` are unique,
so first-match lookup is the dict lookup. -/
def tlookup (m : List (HourKey × Int)) (k : HourKey) : Option Int :=
  match m with
  | [] => none
  | p :: rest => if p.1 = k then some p.2 else tlookup rest k

/-- Day offsets within the campaign whose weekday is in `activeDays`
(the filter on line 105 / the `if day.weekday() in self.active_days` guards
of the table-building loops). -/
def activeOffsets (stAbs : Nat) (nDays : Nat) (activeDays : List Nat) :
    List Nat :=
  (List.range nDays).filter (fun d => (stAbs + d) % 7 ∈ activeDays)

/-- Exact rational ceiling `⌈a / b⌉` of a quotient of integers, computed with
flooring integer division (`Int.fdiv` floors for every divisor, and both
sides are `0` when `b = 0`, matching the `ℚ` convention `a / 0 = 0`).
`ceilQ_eq_ceil` below proves the correspondence. -/
def ceilQ (a b : Int) : Int := -((-a).fdiv b)

/-- Target derivation of `calculate_schedule`, lines 109-147.  The source
computes with Python float division and `math.ceil`; the embedding computes
the corresponding exact rational ceilings via `ceilQ`, after clearing nested
denominators exactly: `ceil((m/adc)/ahc) = ceilQ m (adc*ahc)`,
`ceil(x / (totalDays/30)) = ceilQ (x*30) totalDays` (and `totalDays/30 or 1`
falls back to a denominator of `1` exactly when `totalDays = 0`),
`ceil(x * (adc/totalDays) * 30) = ceilQ (x*adc*30) totalDays`. -/
def calcTargets (tv : Targets) (adc ahc tah : Nat) (totalDays : Int) :
    Targets :=
  if tv.monthly > 0 then
    { tv with
      daily := ceilQ tv.monthly (adc : Int)
      hourly := ceilQ tv.monthly ((adc : Int) * (ahc : Int))
      total := tv.monthly }
  else if tv.total > 0 then
    { tv with
      monthly := if totalDays = 0 then tv.total
                 else ceilQ (tv.total * 30) totalDays
      daily := ceilQ tv.total (adc : Int)
      hourly := ceilQ tv.total ((adc : Int) * (ahc : Int)) }
  else if tv.daily > 0 then
    { tv with
      hourly := ceilQ tv.daily (ahc : Int)
      monthly := ceilQ (tv.daily * (adc : Int) * 30) totalDays
      total := tv.daily * (adc : Int) }
  else if tv.hourly > 0 then
    { tv with
      daily := tv.hourly * (ahc : Int)
      monthly := ceilQ (tv.hourly * (ahc : Int) * (adc : Int) * 30) totalDays
      total := tv.hourly * (tah : Int) }
  else tv

/-- The common loop shape of the table-building branches: for each active
day offset `d` (in order) and each hour `h` of `active_hours` (in list
order), one entry under key `(date of start+d, h)` with value `f d h`. -/
def bucketPairs {α : Type} (stAbs : Nat) (offs aHours : List Nat)
    (f : Nat → Nat → α) : List ((Nat × Nat) × α) :=
  offs.flatMap (fun d => aHours.map (fun h => ((stAbs + d, h), f d h)))

/-- Assignment sequence of the `'even'` branch (lines 153-160). -/
def evenPairs (stAbs nDays : Nat) (aDays aHours : List Nat) (hourly : Int) :
    List (HourKey × Int) :=
  bucketPairs stAbs (activeOffsets stAbs nDays aDays) aHours
    (fun _ _ => hourly)

/-- Weights of the `'frontloaded'` branch (lines 191-198):
`max(1, total_active_hours - (day_offset*24 + hour))` (Python's
`max(1, ·)` of a possibly negative value coincides with `max 1` of the
truncated `Nat` subtraction). -/
def frontWeights (stAbs nDays : Nat) (aDays aHours : List Nat) (tah : Nat) :
    List (HourKey × Nat) :=
  bucketPairs stAbs (activeOffsets stAbs nDays aDays) aHours
    (fun d h => max 1 (tah - (d * 24 + h)))

/-- Weights of the `'backloaded'` branch (lines 210-217):
`day_offset*24 + hour + 1`. -/
def backWeights (stAbs nDays : Nat) (aDays aHours : List Nat) :
    List (HourKey × Nat) :=
  bucketPairs stAbs (activeOffsets stAbs nDays aDays) aHours
    (fun d h => d * 24 + h + 1)

/-- `math.ceil((weight / total_weight) * total_target)` (lines 202, 221):
exactly `⌈(w * T) / W⌉`. -/
def ceilShare (w W : Nat) (T : Int) : Int :=
  ceilQ ((w : Int) * T) (W : Int)

/-- Convert a weight list into the target table (lines 200-202 / 219-221). -/
def weightTable (wts : List (HourKey × Nat)) (T : Int) :
    List (HourKey × Int) :=
  let W := (wts.map (fun p => p.2)).sum
  dictOf (wts.map (fun p => (p.1, ceilShare p.2 W T)))

/-- One uniform increment step of the `'random'` branch inner loop
(lines 177-180): add one visit at a randomly drawn bucket index. -/
def bump (l : List Nat) (i : Nat) : List Nat :=
  l.set i ((l.getD i 0) + 1)

/-- Scatter `n` visit units over `slots.length` buckets using the draw
stream `rng` starting at index `base` (the `while remaining > 0` loop). -/
def scatter (rng : Nat → Nat) (base : Nat) : Nat → List Nat → List Nat
  | 0, acc => acc
  | n + 1, acc =>
      scatter rng base n (bump acc (rng (base + n) % acc.length))

/-- Assignment sequence of the `'random'` branch (lines 162-183): for each
active day the daily target is scattered over that day's active hours. -/
def randomPairs (stAbs nDays : Nat) (aDays aHours : List Nat) (daily : Int)
    (rng : Nat → Nat) : List (HourKey × Int) :=
  let offs := activeOffsets stAbs nDays aDays
  (offs.enum).flatMap (fun di =>
    let vals := scatter rng (di.1 * daily.toNat) daily.toNat
      (List.replicate aHours.length 0)
    (aHours.enum).map (fun hi =>
      ((stAbs + di.2, hi.2), ((vals.getD hi.1 0 : Nat) : Int))))

/-- The hourly target table produced by lines 149-221, as a function of the
schedule mode.  An unrecognised stored mode leaves the table empty (line 150
clears it and no branch fires). -/
def buildTable (mode : String) (tv : Targets) (stAbs nDays : Nat)
    (aDays aHours : List Nat) (rng : Nat → Nat) : List (HourKey × Int) :=
  if mode = "even" then
    dictOf (evenPairs stAbs nDays aDays aHours tv.hourly)
  else if mode = "random" then
    dictOf (randomPairs stAbs nDays aDays aHours tv.daily rng)
  else if mode = "frontloaded" then
    let tah := (activeOffsets stAbs nDays aDays).length * aHours.length
    weightTable (frontWeights stAbs nDays aDays aHours tah) tv.total
  else if mode = "backloaded" then
    weightTable (backWeights stAbs nDays aDays aHours) tv.total
  else []

/-- `TrafficScheduler.calculate_schedule` (lines 87-223).  `now` is
`datetime.now()` and `monthEnd` the last instant of the current month; they
are consulted only when `start_date` / `end_date` are unset (lines 92-101). -/
def calculate_schedule (s : Scheduler) (now monthEnd : DateTime)
    (rng : Nat → Nat) : Scheduler :=
  let en := s.end_date.getD monthEnd
  let st := s.start_date.getD now
  let totalDays : Int := daysBetween en st + 1
  let nDays : Nat := totalDays.toNat
  let adc : Nat := (activeOffsets st.absDay nDays s.active_days).length
  let ahc : Nat := s.active_hours.length
  let tah : Nat := adc * ahc
  let tv := calcTargets s.targets adc ahc tah totalDays
  { s with
    start_date := some st
    end_date := some en
    targets := tv
    hourly_targets :=
      buildTable s.schedule_mode tv st.absDay nDays s.active_days
        s.active_hours rng }

/-- `TrafficScheduler.set_target` (lines 41-48). -/
def set_target (s : Scheduler) (period : String) (value : Int)
    (now monthEnd : DateTime) (rng : Nat → Nat) : Scheduler :=
  if period = "hourly" ∨ period = "daily" ∨ period = "monthly" ∨
      period = "total" then
    let tv :=
      if period = "hourly" then { s.targets with hourly := value }
      else if period = "daily" then { s.targets with daily := value }
      else if period = "monthly" then { s.targets with monthly := value }
      else { s.targets with total := value }
    calculate_schedule { s with targets := tv } now monthEnd rng
  else s

/-- `TrafficScheduler.set_time_range` (lines 50-57). -/
def set_time_range (s : Scheduler) (sd ed : DateTime)
    (now monthEnd : DateTime) (rng : Nat → Nat) : Scheduler :=
  calculate_schedule { s with start_date := some sd, end_date := some ed }
    now monthEnd rng

/-- `TrafficScheduler.set_active_hours` (lines 59-65). -/
def set_active_hours (s : Scheduler) (hours : List Nat)
    (now monthEnd : DateTime) (rng : Nat → Nat) : Scheduler :=
  calculate_schedule { s with active_hours := hours } now monthEnd rng

/-- `TrafficScheduler.set_schedule_mode` (lines 75-85): invalid modes are
logged and ignored. -/
def set_schedule_mode (s : Scheduler) (mode : String)
    (now monthEnd : DateTime) (rng : Nat → Nat) : Scheduler :=
  if mode = "even" ∨ mode = "random" ∨ mode = "frontloaded" ∨
      mode = "backloaded" then
    calculate_schedule { s with schedule_mode := mode } now monthEnd rng
  else s

/-- `TrafficScheduler.should_generate_traffic` (lines 225-260), returning the
decision together with the post-call state.  Note the source performs the
counter rollover (lines 247-258) only after all rejection returns. -/
def should_generate_traffic (s : Scheduler) (now : DateTime) :
    Bool × Scheduler :=
  let key : HourKey := (now.absDay, now.hour)
  if s.start_date.any (fun st => decide (now.toSeconds < st.toSeconds)) then
    (false, s)
  else if s.end_date.any (fun en => decide (en.toSeconds < now.toSeconds)) then
    (false, s)
  else if ¬ (now.hour ∈ s.active_hours ∧ now.weekday ∈ s.active_days) then
    (false, s)
  else if (tlookup s.hourly_targets key).any
      (fun t => decide ((s.hourly_visits : Int) ≥ t)) then
    (false, s)
  else
    let s1 := if s.last_hour ≠ some now.hour then
        { s with hourly_visits := 0, last_hour := some now.hour } else s
    let s2 := if s1.last_day ≠ some now.dayOfMonth then
        { s1 with daily_visits := 0, last_day := some now.dayOfMonth } else s1
    let s3 := if s2.last_month ≠ some now.month then
        { s2 with monthly_visits := 0, last_month := some now.month } else s2
    (true, s3)

/-- `TrafficScheduler.record_visit` (lines 262-267). -/
def record_visit (s : Scheduler) : Scheduler :=
  { s with
    hourly_visits := s.hourly_visits + 1
    daily_visits := s.daily_visits + 1
    monthly_visits := s.monthly_visits + 1
    total_visits := s.total_visits + 1 }

/-- The window/calendar part of the gate (steps 1-2 of the spec's algorithm):
inside `[start, end]` and in the active hour/day sets. -/
def windowCalendarOk (s : Scheduler) (now : DateTime) : Bool :=
  !(s.start_date.any (fun st => decide (now.toSeconds < st.toSeconds))) &&
  !(s.end_date.any (fun en => decide (en.toSeconds < now.toSeconds))) &&
  decide (now.hour ∈ s.active_hours) && decide (now.weekday ∈ s.active_days)

/-! ## TrafficBot: task queue, worker, pause/resume, statistics
(`src/modules/traffic_bot.py`) -/

/-- A work item on `task_queue`: `{"type": "search", "keyword": k}` or
`{"type": "visit", "url": u}`. -/
inductive Task where
  | search (keyword : String)
  | visit (url : String)
deriving DecidableEq, Repr

/-- Outcome of one `search_google` call (lines 100-187), as the worker sees
it.  Every failure path — schedule-gate rejection (line 104), driver-creation
failure (line 134), an exception before any result href was extracted — makes
`search_google` return the empty list; success returns the extracted URLs. -/
inductive SearchOutcome where
  | gateRejected
  | driverFailed
  | failed
  | ok (urls : List String)
deriving DecidableEq, Repr

/-- The URL list `search_google` returns to the worker for a given outcome. -/
def searchResult : SearchOutcome → List String
  | .gateRejected => []
  | .driverFailed => []
  | .failed => []
  | .ok urls => urls

/-- `TrafficBot._queue_tasks` (lines 621-635): one `visit` task per URL, then
one `search` task per keyword. -/
def queue_tasks (urls keywords : List String) : List Task :=
  urls.map Task.visit ++ keywords.map Task.search

/-- One pass of the worker body (lines 567-578) on a dequeued task: a
`search` task enqueues a `visit` task per URL of `results[:3]` (line 571);
a `visit` task enqueues nothing. -/
def processTask (q : List Task) (t : Task) (out : SearchOutcome) :
    List Task :=
  match t with
  | .search _ => q ++ ((searchResult out).take 3).map Task.visit
  | .visit _ => q

/-- Pool state of `TrafficBot` relevant to pause/resume: the `running` and
`paused` flags, one worker thread's liveness, and the task queue. -/
structure Pool where
  running : Bool
  paused : Bool
  workerAlive : Bool
  queue : List Task
deriving DecidableEq, Repr

/-- Externally observable events on the pool.  `workerCheck` is one
evaluation of the worker loop head `while self.running and not self.paused`
(line 565): if the condition fails the thread leaves the loop and dies; if it
holds the worker dequeues and processes the head task (dead threads take no
steps).  `pause` / `resume` are lines 605-619. -/
inductive Event where
  | workerCheck (out : SearchOutcome)
  | pause
  | resume
deriving Repr

/-- Transition function of the pool model. -/
def poolStep (p : Pool) (e : Event) : Pool :=
  match e with
  | .workerCheck out =>
      if ¬ p.workerAlive then p
      else if p.running ∧ ¬ p.paused then
        match p.queue with
        | [] => p
        | t :: rest => { p with queue := processTask rest t out }
      else { p with workerAlive := false }
  | .pause =>
      if ¬ p.running ∨ p.paused then p else { p with paused := true }
  | .resume =>
      if ¬ p.running ∨ ¬ p.paused then p else { p with paused := false }

/-- Run a sequence of events. -/
def poolRun (p : Pool) (es : List Event) : Pool := es.foldl poolStep p

/-- `TrafficBot.start` (lines 584-603) for a one-worker pool: sets the flags,
spawns the worker, then seeds the queue from the configured URL/keyword
lists. -/
def poolStart (urls keywords : List String) : Pool where
  running := true
  paused := false
  workerAlive := true
  queue := queue_tasks urls keywords

/-- The statistics counters of `visit_url` (subset of `self.stats`,
lines 44-61, that the visit path touches). -/
structure Stats where
  visits : Nat
  successful_visits : Nat
  failed_visits : Nat
deriving DecidableEq, Repr

/-- The branch `visit_url` (lines 198-379) takes, as determined by the
schedule gate and the external collaborators:
* `gateRejected` — `check_schedule` false (line 201): immediate `False`.
* `driverFailed` — `get_driver` returned `None` (line 250).
* `emptyTitle` — page loaded with an empty title (line 270).
* `exn` — an exception anywhere in the `try` block (line 370); every raise
  point precedes the `successful_visits` increment, so the handler's
  `failed_visits += 1` is the only counter it touches besides `visits`.
* `bounce` — the bounce path (lines 292-308).
* `full` — the full-visit path (lines 310-368). -/
inductive VisitOutcome where
  | gateRejected
  | driverFailed
  | emptyTitle
  | exn
  | bounce
  | full
deriving DecidableEq, Repr

/-- Effect of one `visit_url` call on the statistics counters, with its
boolean return value.  The `visits` increment is line 210, reached on every
gate-passing call before any branching. -/
def visit_url (st : Stats) (out : VisitOutcome) : Stats × Bool :=
  match out with
  | .gateRejected => (st, false)
  | .driverFailed =>
      ({ st with visits := st.visits + 1,
                 failed_visits := st.failed_visits + 1 }, false)
  | .emptyTitle =>
      ({ st with visits := st.visits + 1,
                 failed_visits := st.failed_visits + 1 }, false)
  | .exn =>
      ({ st with visits := st.visits + 1,
                 failed_visits := st.failed_visits + 1 }, false)
  | .bounce =>
      ({ st with visits := st.visits + 1,
                 successful_visits := st.successful_visits + 1 }, true)
  | .full =>
      ({ st with visits := st.visits + 1,
                 successful_visits := st.successful_visits + 1 }, true)

/-! ## Concrete scenarios used by counterexamples and bug demonstrations -/

/-- Midnight of day 0 (a Monday the 1st). -/
def dt0h0 : DateTime := ⟨0, 0, 0, 0, 1, 1⟩

/-- One o'clock of day 0: one hour boundary after `dt0h0`. -/
def dt0h1 : DateTime := ⟨0, 1, 0, 0, 1, 1⟩

/-- Last second of day 0. -/
def dt0end : DateTime := ⟨0, 23, 59, 59, 1, 1⟩

/-- A fixed draw stream (irrelevant outside `"random"` mode). -/
def rng0 : Nat → Nat := fun _ => 0

/-- One orchestrator round at a fixed instant: gate check, and on permission
a completed visit recorded via `record_visit`. -/
def gateThenRecord (s : Scheduler) (now : DateTime) : Scheduler :=
  let r := should_generate_traffic s now
  if r.1 then record_visit r.2 else r.2

/-- A scheduler configured for a one-day campaign over all 24 default active
hours, with every target still zero. -/
def zeroTargetSched : Scheduler :=
  set_time_range initScheduler dt0h0 dt0end dt0h0 dt0end rng0

/-- Campaign over day 0, active hours `[0, 1]`, hourly target `5`, after
five gate-checked and recorded visits in the hour-0 bucket: the hour-0
quota is exhausted (`hourly_visits = 5`, `last_hour = 0`). -/
def quotaFullSched : Scheduler :=
  let sRange := set_time_range initScheduler dt0h0 dt0end dt0h0 dt0end rng0
  let sHours := set_active_hours sRange [0, 1] dt0h0 dt0end rng0
  let sTarget := set_target sHours "hourly" 5 dt0h0 dt0end rng0
  gateThenRecord (gateThenRecord (gateThenRecord (gateThenRecord
    (gateThenRecord sTarget dt0h0) dt0h0) dt0h0) dt0h0) dt0h0

/-- A scheduler for a one-day frontloaded campaign whose active-hours list is
given in the (legal but unsorted) order `[23, 0]`, with `monthly = 30`. -/
def unsortedFrontSched : Scheduler :=
  let sRange := set_time_range initScheduler dt0h0 dt0end dt0h0 dt0end rng0
  let sHours := set_active_hours sRange [23, 0] dt0h0 dt0end rng0
  let sMode := set_schedule_mode sHours "frontloaded" dt0h0 dt0end rng0
  set_target sMode "monthly" 30 dt0h0 dt0end rng0

/-- Campaign over day 0, active hours `[0, 1]`, configured via a daily
target of `10` (so daily is the authoritative input). -/
def dailyTargetSched : Scheduler :=
  let sRange := set_time_range initScheduler dt0h0 dt0end dt0h0 dt0end rng0
  let sHours := set_active_hours sRange [0, 1] dt0h0 dt0end rng0
  set_target sHours "daily" 10 dt0h0 dt0end rng0

/-- A scheduler with a stored monthly target of 30 and the day-0 window. -/
def monthlySched : Scheduler :=
  { initScheduler with
    targets := ⟨0, 0, 30, 0⟩
    start_date := some dt0h0
    end_date := some dt0end }

/-- Like `unsortedFrontSched` but with the active hours in ascending order
`[0, 1]`. -/
def frontSortedSched : Scheduler :=
  let sRange := set_time_range initScheduler dt0h0 dt0end dt0h0 dt0end rng0
  let sHours := set_active_hours sRange [0, 1] dt0h0 dt0end rng0
  let sMode := set_schedule_mode sHours "frontloaded" dt0h0 dt0end rng0
  set_target sMode "monthly" 30 dt0h0 dt0end rng0

/-! ## Helper lemmas about the gate and the target-table dictionary -/

/-- A successful `tlookup` exhibits a member of the association list. -/
lemma tlookup_mem : ∀ {m : List (HourKey × Int)} {k t},
    tlookup m k = some t → (k, t) ∈ m := by
  intro m
  induction m with
  | nil => intro k t h; simp [tlookup] at h
  | cons p rest ih =>
      intro k t h
      unfold tlookup at h
      split at h
      · next hk =>
          obtain rfl : p.2 = t := by simpa using h
          simp [← hk]
      · exact List.mem_cons_of_mem _ (ih h)

/-- When the current bucket's target is already met, every path of the gate
returns `(false, s)`: the source's rollover block (lines 247-258) is not
reached on any rejection. -/
lemma gate_false_of_quota (s : Scheduler) (now : DateTime) (t : Int)
    (hl : tlookup s.hourly_targets (now.absDay, now.hour) = some t)
    (hge : (s.hourly_visits : Int) ≥ t) :
    should_generate_traffic s now = (false, s) := by
  unfold should_generate_traffic
  split
  · rfl
  split
  · rfl
  split
  · rfl
  dsimp only
  rw [hl]
  simp [hge]

/-- Without a bucket entry for the current key, the gate's decision is
exactly the window/calendar check. -/
lemma gate_eq_window_of_none (s : Scheduler) (now : DateTime)
    (hl : tlookup s.hourly_targets (now.absDay, now.hour) = none) :
    (should_generate_traffic s now).1 = windowCalendarOk s now := by
  unfold should_generate_traffic windowCalendarOk
  split
  · next h1 => simp [h1]
  next h1 =>
    split
    · next h2 => simp [h1, h2]
    next h2 =>
      split
      · next h3 =>
        simp only [Bool.not_eq_true] at h1 h2
        rw [Decidable.not_and_iff_or_not] at h3
        rcases h3 with h3 | h3 <;> simp [h1, h2, h3]
      next h3 =>
        rw [Decidable.not_not] at h3
        dsimp only
        rw [hl]
        simp only [Bool.not_eq_true] at h1 h2
        simp [h1, h2, h3.1, h3.2]

/-- Members of `dictInsert m k v` come from `m` or are the new entry. -/
lemma mem_dictInsert {m : List (HourKey × Int)} {k v} :
    ∀ p ∈ dictInsert m k v, p ∈ m ∨ p = (k, v) := by
  intro p hp
  unfold dictInsert at hp
  split at hp
  · obtain ⟨q, hq, hqe⟩ := List.mem_map.1 hp
    split at hqe
    · right; exact hqe.symm
    · left; exact hqe ▸ hq
  · rcases List.mem_append.1 hp with h | h
    · left; exact h
    · right; simpa using h

/-- A property of all assignments carries over to the resulting dict. -/
lemma mem_foldl_dictInsert (P : HourKey × Int → Prop) :
    ∀ (pairs acc : List (HourKey × Int)),
      (∀ p ∈ acc, P p) → (∀ p ∈ pairs, P p) →
      ∀ p ∈ pairs.foldl (fun m q => dictInsert m q.1 q.2) acc, P p := by
  intro pairs
  induction pairs with
  | nil => intro acc hacc _ p hp; exact hacc p hp
  | cons q rest ih =>
      intro acc hacc hpairs p hp
      refine ih (dictInsert acc q.1 q.2) ?_
        (fun r hr => hpairs r (List.mem_cons_of_mem _ hr)) p hp
      intro r hr
      rcases mem_dictInsert r hr with h | h
      · exact hacc r h
      · rw [h, Prod.mk.eta]
        exact hpairs q (List.mem_cons_self _ _)

lemma mem_dictOf (P : HourKey × Int → Prop) (pairs : List (HourKey × Int))
    (h : ∀ p ∈ pairs, P p) : ∀ p ∈ dictOf pairs, P p :=
  mem_foldl_dictInsert P pairs [] (by simp) h

lemma ceilShare_zero (w W : Nat) : ceilShare w W 0 = 0 := by
  simp [ceilShare, ceilQ]

lemma getD_replicate_zero :
    ∀ n i : Nat, (List.replicate n (0 : Nat)).getD i 0 = 0
  | 0, _ => rfl
  | _ + 1, 0 => rfl
  | n + 1, i + 1 => getD_replicate_zero n i

/-- With all four targets zero, the derivation leaves them zero. -/
lemma calcTargets_zero (adc ahc tah : Nat) (td : Int) :
    calcTargets ⟨0, 0, 0, 0⟩ adc ahc tah td = ⟨0, 0, 0, 0⟩ := by
  simp [calcTargets]

/-- With all four targets zero, every bucket entry the table gets (in any
mode) carries the value `0`. -/
lemma buildTable_zero_values (mode : String) (stAbs nDays : Nat)
    (aDays aHours : List Nat) (rng : Nat → Nat) :
    ∀ p ∈ buildTable mode ⟨0, 0, 0, 0⟩ stAbs nDays aDays aHours rng,
      p.2 = 0 := by
  unfold buildTable
  split_ifs with h1 h2 h3 h4
  · apply mem_dictOf
    intro p hp
    simp only [evenPairs, bucketPairs, List.mem_flatMap, List.mem_map] at hp
    obtain ⟨d, _, h, _, rfl⟩ := hp
    rfl
  · apply mem_dictOf
    intro p hp
    simp only [randomPairs, List.mem_flatMap, List.mem_map] at hp
    obtain ⟨di, _, hi, _, rfl⟩ := hp
    simp [scatter, getD_replicate_zero]
  · dsimp only [weightTable]
    apply mem_dictOf
    intro p hp
    simp only [List.mem_map] at hp
    obtain ⟨q, _, rfl⟩ := hp
    exact ceilShare_zero _ _
  · dsimp only [weightTable]
    apply mem_dictOf
    intro p hp
    simp only [List.mem_map] at hp
    obtain ⟨q, _, rfl⟩ := hp
    exact ceilShare_zero _ _
  · simp

/-- `Int.fdiv` by a natural number is the rational floor of the quotient
(both sides are `0` for a zero divisor). -/
lemma fdiv_natCast_eq_floor (a : Int) (b : Nat) :
    a.fdiv (b : Int) = ⌊(a : ℚ) / (b : ℚ)⌋ := by
  cases b with
  | zero => simp [Int.fdiv_zero]
  | succ n =>
      rw [Int.fdiv_eq_ediv _ (by positivity)]
      exact_mod_cast (Rat.floor_intCast_div_natCast a (n + 1)).symm

/-- `ceilQ` computes the rational ceiling of the quotient. -/
lemma ceilQ_natCast_eq_ceil (a : Int) (b : Nat) :
    ceilQ a (b : Int) = ⌈(a : ℚ) / (b : ℚ)⌉ := by
  unfold ceilQ
  rw [fdiv_natCast_eq_floor]
  rw [show ((-a : ℤ) : ℚ) = -(a : ℚ) by push_cast; ring]
  rw [neg_div, Int.floor_neg, neg_neg]

/-- When a positive monthly target is present it is authoritative and is
preserved by the derivation. -/
lemma calcTargets_monthly_pos (tv : Targets) (adc ahc tah : Nat) (td : Int)
    (h : 0 < tv.monthly) :
    (calcTargets tv adc ahc tah td).monthly = tv.monthly := by
  unfold calcTargets
  rw [if_pos h]

/-- With a positive monthly target the derivation is a fixed point after
one application. -/
lemma calcTargets_fix (tv : Targets) (adc ahc tah : Nat) (td : Int)
    (h : 0 < tv.monthly) :
    calcTargets (calcTargets tv adc ahc tah td) adc ahc tah td
      = calcTargets tv adc ahc tah td := by
  have h2 : 0 < (calcTargets tv adc ahc tah td).monthly := by
    rw [calcTargets_monthly_pos tv adc ahc tah td h]; exact h
  conv_lhs => rw [calcTargets, if_pos h2]
  conv_rhs => rw [calcTargets, if_pos h]
  rw [calcTargets, if_pos h]

/-- Outside `"random"` mode the table does not depend on the draw stream. -/
lemma buildTable_rng_irrel (mode : String) (tv : Targets) (stAbs nDays : Nat)
    (aDays aHours : List Nat) (rng rng₂ : Nat → Nat) (h : mode ≠ "random") :
    buildTable mode tv stAbs nDays aDays aHours rng₂
      = buildTable mode tv stAbs nDays aDays aHours rng := by
  unfold buildTable
  split_ifs with h1 h2 h3 <;> rfl

/-! ## Claim theorems -/

/-- C1: the claim asserts that `should_generate_traffic` performs the
hour/day/month rollover bookkeeping on every call, "even when the call
returns false on a rejection path".  The code performs the rollover (lines
247-258) only after all rejection `return False`s, so on a rejection it
resets nothing.  Demonstration at the failing input: a campaign with hourly
target 5 whose hour-0 bucket is exhausted; at hour 1 (an hour boundary
crossing, `last_hour = 0`) the window/calendar checks pass, the quota check
rejects against the stale counter, and the call returns `false` leaving
`hourly_visits = 5` and `last_hour = 0` — no reset, no marker update, so the
scheduler stays locked out for the whole campaign. -/
theorem c1_rollover_skipped_on_rejection :
    quotaFullSched.hourly_visits = 5 ∧
    quotaFullSched.last_hour = some 0 ∧
    windowCalendarOk quotaFullSched dt0h1 = true ∧
    tlookup quotaFullSched.hourly_targets (0, 1) = some 5 ∧
    should_generate_traffic quotaFullSched dt0h1 = (false, quotaFullSched) := by
  decide

/-- C4: the gate returns `false` whenever `now` precedes `start_date`,
follows `end_date`, or falls outside the active hour/day sets — regardless
of the counters and the hourly target table (lines 227-241). -/
theorem c4_gate_rejects_outside_window (s : Scheduler) (now : DateTime)
    (h : (∃ st, s.start_date = some st ∧ now.toSeconds < st.toSeconds) ∨
         (∃ en, s.end_date = some en ∧ en.toSeconds < now.toSeconds) ∨
         now.hour ∉ s.active_hours ∨ now.weekday ∉ s.active_days) :
    (should_generate_traffic s now).1 = false := by
  unfold should_generate_traffic
  rcases h with ⟨st, hst, hlt⟩ | ⟨en, hen, hlt⟩ | hh | hd
  · have h1 : s.start_date.any
        (fun st => decide (now.toSeconds < st.toSeconds)) = true := by
      rw [hst]; simpa using hlt
    simp [h1]
  · split
    · rfl
    have h2 : s.end_date.any
        (fun en => decide (en.toSeconds < now.toSeconds)) = true := by
      rw [hen]; simpa using hlt
    simp [h2]
  · split
    · rfl
    split
    · rfl
    rw [if_pos (fun hc => hh hc.1)]
  · split
    · rfl
    split
    · rfl
    rw [if_pos (fun hc => hd hc.2)]

/-- Witness for C4 at a concrete input: hour 0 is not in the active-hours
list `[5]`, so the gate rejects. -/
theorem c4_witness :
    (should_generate_traffic { initScheduler with active_hours := [5] }
      dt0h0).1 = false :=
  c4_gate_rejects_outside_window _ _ (Or.inr (Or.inr (Or.inl (by decide))))

/-- C5: (a) once the current bucket's entry `t` is met by `hourly_visits`,
every further check in that same (date, hour) bucket returns `false` and
leaves the state unchanged (so the rejection persists until an hour
rollover); (b) `record_visit` increments all four live counters by one;
(c) with no entry for the current bucket key the quota step is skipped and
the gate degrades to the pure window/calendar decision. -/
theorem c5_quota_enforcement (s : Scheduler) (now : DateTime) :
    (∀ t, tlookup s.hourly_targets (now.absDay, now.hour) = some t →
      (s.hourly_visits : Int) ≥ t →
      ∀ now₂ : DateTime, now₂.absDay = now.absDay → now₂.hour = now.hour →
        should_generate_traffic s now₂ = (false, s)) ∧
    ((record_visit s).hourly_visits = s.hourly_visits + 1 ∧
     (record_visit s).daily_visits = s.daily_visits + 1 ∧
     (record_visit s).monthly_visits = s.monthly_visits + 1 ∧
     (record_visit s).total_visits = s.total_visits + 1) ∧
    (tlookup s.hourly_targets (now.absDay, now.hour) = none →
      (should_generate_traffic s now).1 = windowCalendarOk s now) := by
  refine ⟨?_, ⟨rfl, rfl, rfl, rfl⟩, fun hl => gate_eq_window_of_none s now hl⟩
  intro t hl hge now₂ hd hh
  exact gate_false_of_quota s now₂ t (by rw [hd, hh]; exact hl) hge

/-- Witness for C5 at a concrete input: bucket (0,0) targets 5 visits, 5
are recorded, and the gate rejects without touching the state. -/
theorem c5_witness :
    should_generate_traffic
      { initScheduler with hourly_targets := [((0, 0), 5)], hourly_visits := 5 }
      dt0h0
      = (false,
         { initScheduler with
           hourly_targets := [((0, 0), 5)], hourly_visits := 5 }) :=
  (c5_quota_enforcement _ dt0h0).1 5 (by decide) (by decide) dt0h0 rfl rfl

/-- C7: a worker that dequeues a `search` task whose execution returns `n`
URLs enqueues exactly `min n 3` `visit` tasks (`results[:3]`, line 571); with
one keyword, no URLs, and a successful search returning 5 URLs, exactly 3
`visit` tasks end up queued; a failed search (empty result list) enqueues
none. -/
theorem c7_search_top3_cap :
    (∀ (q : List Task) (kw : String) (urls : List String),
      processTask q (.search kw) (.ok urls) = q ++ (urls.take 3).map Task.visit ∧
      (processTask q (.search kw) (.ok urls)).length = q.length + min urls.length 3) ∧
    (∀ (q : List Task) (kw : String),
      processTask q (.search kw) .gateRejected = q ∧
      processTask q (.search kw) .driverFailed = q ∧
      processTask q (.search kw) .failed = q) ∧
    (poolStep (poolStart [] ["kw"])
        (.workerCheck (.ok ["u1", "u2", "u3", "u4", "u5"]))).queue
      = [Task.visit "u1", Task.visit "u2", Task.visit "u3"] := by
  refine ⟨fun q kw urls => ⟨rfl, ?_⟩,
    fun q kw => ⟨by simp [processTask, searchResult],
      by simp [processTask, searchResult],
      by simp [processTask, searchResult]⟩, by decide⟩
  simp [processTask, searchResult, Nat.min_comm]

/-- Witness for C7 at a concrete input: 4 result URLs yield `min 4 3 = 3`
new tasks. -/
theorem c7_witness :
    (processTask [] (.search "k") (.ok ["a", "b", "c", "d"])).length
      = ([] : List Task).length + min ["a", "b", "c", "d"].length 3 :=
  (c7_search_top3_cap.1 [] "k" ["a", "b", "c", "d"]).2

/-- C10: `visit_url` preserves `visits = successful_visits + failed_visits`:
a gate-rejected call changes nothing and returns `false`; a gate-passing
call increments `visits` once and then exactly one of `failed_visits`
(driver failure, empty title, exception) or `successful_visits` (bounce and
full visits). -/
theorem c10_stats_invariant (st : Stats) (out : VisitOutcome)
    (hinv : st.visits = st.successful_visits + st.failed_visits) :
    ((visit_url st out).1.visits =
      (visit_url st out).1.successful_visits + (visit_url st out).1.failed_visits) ∧
    (out = .gateRejected → (visit_url st out).1 = st ∧ (visit_url st out).2 = false) ∧
    (out ≠ .gateRejected → (visit_url st out).1.visits = st.visits + 1) ∧
    ((out = .driverFailed ∨ out = .emptyTitle ∨ out = .exn) →
      (visit_url st out).1.failed_visits = st.failed_visits + 1 ∧
      (visit_url st out).1.successful_visits = st.successful_visits) ∧
    ((out = .bounce ∨ out = .full) →
      (visit_url st out).1.successful_visits = st.successful_visits + 1 ∧
      (visit_url st out).1.failed_visits = st.failed_visits) := by
  cases out <;> simp [visit_url] <;> omega

/-- Witness for C10 at a concrete input: a bounce visit from fresh counters
keeps the invariant. -/
theorem c10_witness :
    (visit_url ⟨0, 0, 0⟩ .bounce).1.visits =
      (visit_url ⟨0, 0, 0⟩ .bounce).1.successful_visits +
        (visit_url ⟨0, 0, 0⟩ .bounce).1.failed_visits :=
  (c10_stats_invariant ⟨0, 0, 0⟩ .bounce rfl).1

/-- C8 counterexample: the claim asserts a negative value passed to
`set_target` fails and leaves the previous configuration in effect.  The
source's `set_target` (lines 41-48) checks only the period name; at the
concrete input `set_target("daily", -5)` the stored daily target changes
from `0` to `-5`, so the previous valid configuration does not remain in
effect. -/
theorem c8_counterexample :
    initScheduler.targets.daily = 0 ∧
    (set_target initScheduler "daily" (-5) dt0h0 dt0end rng0).targets.daily
      = -5 := by
  decide

/-- C8 amended: an invalid mode passed to `set_schedule_mode` leaves the
whole configuration unchanged, and `set_target` rejects only unknown period
names — a negative value for a known period is accepted, stored, and fed to
recalculation (here surviving recalculation because no positive target
overrides it). -/
theorem c8_amended :
    (∀ (s : Scheduler) (m : String) (now me : DateTime) (rng : Nat → Nat),
      m ≠ "even" → m ≠ "random" → m ≠ "frontloaded" → m ≠ "backloaded" →
      set_schedule_mode s m now me rng = s) ∧
    (∀ (s : Scheduler) (p : String) (v : Int) (now me : DateTime)
        (rng : Nat → Nat),
      p ≠ "hourly" → p ≠ "daily" → p ≠ "monthly" → p ≠ "total" →
      set_target s p v now me rng = s) ∧
    (∀ (s : Scheduler) (v : Int) (now me : DateTime) (rng : Nat → Nat),
      v < 0 → s.targets.monthly ≤ 0 → s.targets.total ≤ 0 →
      s.targets.hourly ≤ 0 →
      (set_target s "daily" v now me rng).targets.daily = v) := by
  refine ⟨?_, ?_, ?_⟩
  · intro s m now me rng h1 h2 h3 h4
    unfold set_schedule_mode
    rw [if_neg]
    simp [h1, h2, h3, h4]
  · intro s p v now me rng h1 h2 h3 h4
    unfold set_target
    rw [if_neg]
    simp [h1, h2, h3, h4]
  · intro s v now me rng hv hm ht hh
    simp only [set_target, calculate_schedule, calcTargets]
    norm_num
    rw [if_neg (by simp; omega), if_neg (by simp; omega),
        if_neg (by simp; omega), if_neg (by simp; omega)]
    simp

/-- Witness for C8 at concrete inputs: a bogus mode string is ignored, and
a negative daily target is stored. -/
theorem c8_witness :
    set_schedule_mode initScheduler "bogus" dt0h0 dt0end rng0 = initScheduler :=
  c8_amended.1 initScheduler "bogus" dt0h0 dt0end rng0
    (by decide) (by decide) (by decide) (by decide)

/-- C2 counterexample: the claim's second half says that with all four
targets zero "no quota gating applies and the gate decides on time-window
grounds alone".  At the concrete all-zero configuration `zeroTargetSched`
(even mode, one-day window) the window/calendar conditions hold at midnight
of day 0, yet the gate rejects: every bucket entry is `0` and
`hourly_visits = 0 ≥ 0` trips the quota check (line 244). -/
theorem c2_counterexample :
    zeroTargetSched.targets = ⟨0, 0, 0, 0⟩ ∧
    windowCalendarOk zeroTargetSched dt0h0 = true ∧
    (should_generate_traffic zeroTargetSched dt0h0).1 = false := by
  decide

/-- C2 amended: with a positive monthly target and non-empty active
days/hours counts the derivation matches the claimed formulas
(`daily = ⌈monthly/adc⌉`, `hourly = ⌈(monthly/adc)/ahc⌉`, `total =
monthly`).  With all four targets zero, the targets stay zero and every
bucket entry is zero, so the gate rejects whenever the current bucket key is
present in the table; the gate decides on window/calendar grounds alone only
when the key is absent. -/
theorem c2_amended (s : Scheduler) (now me : DateTime) (rng : Nat → Nat) :
    (∀ _hm : 0 < s.targets.monthly,
      let en := s.end_date.getD me
      let st := s.start_date.getD now
      let nDays := (daysBetween en st + 1).toNat
      let adc := (activeOffsets st.absDay nDays s.active_days).length
      let ahc := s.active_hours.length
      0 < adc → 0 < ahc →
      (calculate_schedule s now me rng).targets.daily
          = ⌈(s.targets.monthly : ℚ) / (adc : ℚ)⌉ ∧
      (calculate_schedule s now me rng).targets.hourly
          = ⌈((s.targets.monthly : ℚ) / (adc : ℚ)) / (ahc : ℚ)⌉ ∧
      (calculate_schedule s now me rng).targets.total = s.targets.monthly) ∧
    (s.targets = ⟨0, 0, 0, 0⟩ →
      (calculate_schedule s now me rng).targets = ⟨0, 0, 0, 0⟩ ∧
      (∀ (now₂ : DateTime) (t : Int),
        tlookup (calculate_schedule s now me rng).hourly_targets
          (now₂.absDay, now₂.hour) = some t →
        should_generate_traffic (calculate_schedule s now me rng) now₂
          = (false, calculate_schedule s now me rng)) ∧
      (∀ now₂ : DateTime,
        tlookup (calculate_schedule s now me rng).hourly_targets
          (now₂.absDay, now₂.hour) = none →
        (should_generate_traffic (calculate_schedule s now me rng) now₂).1
          = windowCalendarOk (calculate_schedule s now me rng) now₂)) := by
  constructor
  · intro hm en st nDays adc ahc hadc hahc
    have htv : (calculate_schedule s now me rng).targets
        = calcTargets s.targets adc ahc (adc * ahc)
            (daysBetween en st + 1) := rfl
    rw [htv]
    unfold calcTargets
    rw [if_pos hm]
    refine ⟨ceilQ_natCast_eq_ceil _ _, ?_, rfl⟩
    show ceilQ s.targets.monthly ((adc : Int) * (ahc : Int)) = _
    rw [show ((adc : Int) * (ahc : Int)) = ((adc * ahc : Nat) : Int) by
      push_cast; ring]
    rw [ceilQ_natCast_eq_ceil]
    rw [div_div]
    norm_num
  · intro hz
    have htv : (calculate_schedule s now me rng).targets = ⟨0, 0, 0, 0⟩ := by
      show calcTargets s.targets _ _ _ _ = _
      rw [hz, calcTargets_zero]
    have htab : ∀ p ∈ (calculate_schedule s now me rng).hourly_targets,
        p.2 = 0 := by
      show ∀ p ∈ buildTable s.schedule_mode
        (calcTargets s.targets _ _ _ _) _ _ _ _ rng, p.2 = 0
      rw [hz, calcTargets_zero]
      exact buildTable_zero_values _ _ _ _ _ _
    refine ⟨htv, ?_, fun now₂ hl => gate_eq_window_of_none _ now₂ hl⟩
    intro now₂ t hl
    have ht0 : t = 0 := htab _ (tlookup_mem hl)
    exact gate_false_of_quota _ now₂ t hl (by rw [ht0]; positivity)

/-- Witness for C2 at a concrete input: `monthlySched` has monthly 30, one
active day and 24 active hours, and after recalculation `total = 30`. -/
theorem c2_witness :
    (calculate_schedule monthlySched dt0h0 dt0end rng0).targets.total = 30 := by
  exact ((c2_amended monthlySched dt0h0 dt0end rng0).1
    (by decide) (by decide) (by decide)).2.2

/-- C3 counterexample: the claim asserts `calculate_schedule` is idempotent
for every configuration.  At the concrete daily-authoritative configuration
`dailyTargetSched` (daily 10, one day, two active hours) the first call
derives `monthly = 300`; because the stored targets are derived in place and
monthly has the highest priority, the second call treats `monthly = 300` as
authoritative and rewrites `daily` to `300`, `hourly` to `150` and `total`
to `300` — a different state than after one call. -/
theorem c3_counterexample :
    dailyTargetSched.targets = ⟨5, 10, 300, 10⟩ ∧
    (calculate_schedule dailyTargetSched dt0h0 dt0end rng0).targets
      = ⟨150, 300, 300, 300⟩ ∧
    calculate_schedule dailyTargetSched dt0h0 dt0end rng0
      ≠ dailyTargetSched := by
  decide

/-- C3 amended: `calculate_schedule` is idempotent on configurations whose
stored monthly target is positive (so the authoritative target does not
shift between calls) and whose mode is not `"random"`: a second call — with
any current time, month-end default and draw stream — reproduces the same
four targets and the identical hourly target table. -/
theorem c3_amended (s : Scheduler) (now me now₂ me₂ : DateTime)
    (rng rng₂ : Nat → Nat) (hm : 0 < s.targets.monthly)
    (hmode : s.schedule_mode ≠ "random") :
    calculate_schedule (calculate_schedule s now me rng) now₂ me₂ rng₂
      = calculate_schedule s now me rng := by
  obtain ⟨tv, sd, ed, ah, ad, mode, hv, dv, mv, tvis, lh, ld, lm, ht⟩ := s
  simp only [calculate_schedule, Option.getD] at hm ⊢
  simp only [Scheduler.mk.injEq, and_true, true_and]
  refine ⟨?_, ?_⟩
  · exact calcTargets_fix _ _ _ _ _ hm
  · rw [calcTargets_fix _ _ _ _ _ hm]
    exact buildTable_rng_irrel _ _ _ _ _ _ _ _ hmode

/-- Witness for C3 at a concrete input: recalculating `monthlySched` twice
(with different draw streams) equals recalculating it once. -/
theorem c3_witness :
    calculate_schedule (calculate_schedule monthlySched dt0h0 dt0end rng0)
        dt0h1 dt0end (fun n => n + 1)
      = calculate_schedule monthlySched dt0h0 dt0end rng0 :=
  c3_amended monthlySched dt0h0 dt0end dt0h1 dt0end rng0 (fun n => n + 1)
    (by decide) (by decide)

/-- A worker thread that has left its loop takes no further steps, and no
event revives it or consumes the queue on its behalf. -/
lemma poolStep_dead (p : Pool) (hp : p.workerAlive = false) (e : Event) :
    (poolStep p e).workerAlive = false ∧ (poolStep p e).queue = p.queue := by
  cases e with
  | workerCheck out => simp [poolStep, hp]
  | pause =>
      simp only [poolStep]
      split
      · exact ⟨hp, rfl⟩
      · exact ⟨hp, rfl⟩
  | resume =>
      simp only [poolStep]
      split
      · exact ⟨hp, rfl⟩
      · exact ⟨hp, rfl⟩

lemma poolRun_dead (es : List Event) : ∀ p : Pool, p.workerAlive = false →
    (poolRun p es).workerAlive = false ∧ (poolRun p es).queue = p.queue := by
  induction es with
  | nil => intro p hp; exact ⟨hp, rfl⟩
  | cons e rest ih =>
      intro p hp
      have h1 := poolStep_dead p hp e
      have h2 := ih (poolStep p e) h1.1
      exact ⟨h2.1, h2.2.trans h1.2⟩

/-- C9: the claim asserts that after `pause()` no new task execution starts
and after `resume()` the queued-but-unstarted tasks are eventually executed
by the existing workers.  In the code the worker loop head is
`while self.running and not self.paused` (line 565), so the first half
holds, but a worker that observes the paused flag leaves the loop and its
thread terminates; `resume()` (lines 613-619) only clears the flag.
Demonstration on a one-worker pool holding one unstarted `visit` task:
after pause the worker check terminates the worker without touching the
queue, and after resume every further event sequence leaves the task queued
forever with no live worker — the task is never executed. -/
theorem c9_pause_terminates_worker :
    (∀ out : SearchOutcome,
      poolStep (poolStep (poolStart ["u"] []) .pause) (.workerCheck out)
        = { running := true, paused := true, workerAlive := false,
            queue := [Task.visit "u"] }) ∧
    (∀ (out : SearchOutcome) (es : List Event),
      (poolRun (poolRun (poolStart ["u"] [])
          [.pause, .workerCheck out, .resume]) es).queue = [Task.visit "u"] ∧
      (poolRun (poolRun (poolStart ["u"] [])
          [.pause, .workerCheck out, .resume]) es).workerAlive = false) := by
  refine ⟨fun out => rfl, ?_⟩
  intro out es
  have hbase : poolRun (poolStart ["u"] []) [.pause, .workerCheck out, .resume]
      = ⟨true, false, false, [Task.visit "u"]⟩ := rfl
  rw [hbase]
  have h := poolRun_dead es ⟨true, false, false, [Task.visit "u"]⟩ rfl
  exact ⟨h.2, h.1⟩

/-- Witness for C9 at a concrete input: after pause, worker check and
resume, a further worker check still leaves the task queued. -/
theorem c9_witness :
    (poolRun (poolRun (poolStart ["u"] [])
        [.pause, .workerCheck .failed, .resume])
      [.workerCheck .failed]).queue = [Task.visit "u"] :=
  (c9_pause_terminates_worker.2 .failed [.workerCheck .failed]).1

/-! ## Distribution-mode structure lemmas (for C6) -/

lemma activeOffsets_pairwise (stAbs nDays : Nat) (aDays : List Nat) :
    (activeOffsets stAbs nDays aDays).Pairwise (· < ·) :=
  (List.pairwise_lt_range nDays).filter _

lemma activeOffsets_nodup (stAbs nDays : Nat) (aDays : List Nat) :
    (activeOffsets stAbs nDays aDays).Nodup :=
  (activeOffsets_pairwise stAbs nDays aDays).imp Nat.ne_of_lt

lemma bucketPairs_map_values {α β : Type} (stAbs : Nat)
    (offs hs : List Nat) (f : Nat → Nat → α) (g : α → β) :
    (bucketPairs stAbs offs hs f).map (fun p => (p.1, g p.2))
      = bucketPairs stAbs offs hs (fun d h => g (f d h)) := by
  simp [bucketPairs, List.map_flatMap, List.map_map, Function.comp_def]

lemma bucketPairs_keys_nodup {α : Type} (stAbs : Nat) (offs hs : List Nat)
    (f : Nat → Nat → α) (hoffs : offs.Nodup) (hhs : hs.Nodup) :
    ((bucketPairs stAbs offs hs f).map Prod.fst).Nodup := by
  have hkeys : (bucketPairs stAbs offs hs f).map Prod.fst
      = offs.flatMap (fun d => hs.map (fun h => (stAbs + d, h))) := by
    simp [bucketPairs, List.map_flatMap, List.map_map, Function.comp_def]
  rw [hkeys, List.nodup_flatMap]
  constructor
  · intro d _
    exact hhs.map (fun h₁ h₂ he => by simpa using he)
  · refine hoffs.imp ?_
    intro d₁ d₂ hne x hx₁ hx₂
    simp only [List.mem_map] at hx₁ hx₂
    obtain ⟨h₁, _, rfl⟩ := hx₁
    obtain ⟨h₂, _, he⟩ := hx₂
    simp only [Prod.mk.injEq] at he
    exact hne (by omega)

/-- Folding `dictInsert` over assignments with pairwise-distinct fresh keys
appends them in order. -/
lemma foldl_dictInsert_append :
    ∀ (pairs acc : List (HourKey × Int)),
      (∀ q ∈ pairs, ∀ p ∈ acc, p.1 ≠ q.1) → (pairs.map Prod.fst).Nodup →
      pairs.foldl (fun m q => dictInsert m q.1 q.2) acc = acc ++ pairs := by
  intro pairs
  induction pairs with
  | nil => intro acc _ _; simp
  | cons q rest ih =>
      intro acc hdis hnd
      have hins : dictInsert acc q.1 q.2 = acc ++ [q] := by
        unfold dictInsert
        rw [if_neg, Prod.mk.eta]
        simp only [List.any_eq_true, decide_eq_true_eq, not_exists, not_and]
        intro p hp
        exact hdis q (List.mem_cons_self _ _) p hp
      simp only [List.foldl_cons, hins]
      rw [ih (acc ++ [q]) ?_ ?_]
      · simp
      · intro r hr p hp
        rcases List.mem_append.1 hp with h | h
        · exact hdis r (List.mem_cons_of_mem _ hr) p h
        · obtain rfl : p = q := by simpa using h
          simp only [List.map_cons, List.nodup_cons, List.mem_map] at hnd
          exact fun he => hnd.1 ⟨r, hr, he.symm⟩
      · simp only [List.map_cons, List.nodup_cons] at hnd
        exact hnd.2

/-- With no duplicate keys the dict is the assignment list itself. -/
lemma dictOf_eq_self (pairs : List (HourKey × Int))
    (h : (pairs.map Prod.fst).Nodup) : dictOf pairs = pairs := by
  unfold dictOf
  rw [foldl_dictInsert_append pairs [] (by simp) h]
  simp

lemma mem_of_getLast_eq_some {α : Type} : ∀ {l : List α} {q : α},
    l.getLast? = some q → q ∈ l := by
  intro l q h
  cases l with
  | nil => simp at h
  | cons a l' =>
      rw [List.getLast?_eq_getLast _ (by simp)] at h
      obtain rfl : List.getLast (a :: l') (by simp) = q := by simpa using h
      exact List.getLast_mem _

/-- In a pairwise-related list with at least two elements, the relation
holds between the first and the last element. -/
lemma rel_head_getLast {α : Type} {R : α → α → Prop} :
    ∀ {l : List α}, l.Pairwise R → 1 < l.length →
      ∀ {p q : α}, l.head? = some p → l.getLast? = some q → R p q := by
  intro l hl hlen p q hp hq
  match l, hl, hlen with
  | a :: b :: rest, hl, _ =>
      obtain rfl : a = p := by simpa using hp
      have hq' : q ∈ b :: rest := by
        rw [List.getLast?_cons_cons] at hq
        exact mem_of_getLast_eq_some hq
      exact (List.pairwise_cons.1 hl).1 q hq'

/-- `ceil((w/W)*T)` is monotone in the weight for a non-negative total. -/
lemma ceilShare_mono {w₁ w₂ W : Nat} {T : Int} (hw : w₂ ≤ w₁) (hT : 0 ≤ T) :
    ceilShare w₂ W T ≤ ceilShare w₁ W T := by
  unfold ceilShare
  rw [ceilQ_natCast_eq_ceil, ceilQ_natCast_eq_ceil]
  apply Int.ceil_le_ceil
  rcases Nat.eq_zero_or_pos W with hW | hW
  · simp [hW]
  · rw [div_le_div_iff_of_pos_right (by exact_mod_cast hW)]
    push_cast
    apply mul_le_mul_of_nonneg_right _ (by exact_mod_cast hT)
    exact_mod_cast hw

/-- Bucket values stand in relation `R` along the table order whenever `R`
respects the global bucket index `day_offset*24 + hour` (days iterate in
increasing order; within a day the hours iterate in list order, assumed
ascending and `< 24`). -/
lemma bucketPairs_pairwise {α : Type} (stAbs : Nat) (offs aHours : List Nat)
    (f : Nat → Nat → α) (R : α → α → Prop)
    (hoffs : offs.Pairwise (· < ·)) (hsort : aHours.Pairwise (· < ·))
    (h24 : ∀ h ∈ aHours, h < 24)
    (hR : ∀ d₁ h₁ d₂ h₂, h₁ ∈ aHours → h₂ ∈ aHours →
      d₁ * 24 + h₁ < d₂ * 24 + h₂ → R (f d₁ h₁) (f d₂ h₂)) :
    (bucketPairs stAbs offs aHours f).Pairwise (fun p q => R p.2 q.2) := by
  unfold bucketPairs
  rw [List.pairwise_flatMap]
  constructor
  · intro d _
    rw [List.pairwise_map]
    have h' := (List.Pairwise.and_mem.1 hsort)
    exact h'.imp (fun {h₁ h₂} hab =>
      hR d h₁ d h₂ hab.1 hab.2.1 (by have := hab.2.2; omega))
  · refine hoffs.imp ?_
    intro d₁ d₂ hd x hx y hy
    simp only [List.mem_map] at hx hy
    obtain ⟨h₁, hh₁, rfl⟩ := hx
    obtain ⟨h₂, hh₂, rfl⟩ := hy
    exact hR d₁ h₁ d₂ h₂ hh₁ hh₂ (by have := h24 h₁ hh₁; omega)

lemma sum_map_snd_bucketPairs_const (stAbs : Nat) (offs hs : List Nat)
    (c : Int) :
    ((bucketPairs stAbs offs hs (fun _ _ => c)).map (fun p => p.2)).sum
      = c * (offs.length * hs.length) := by
  induction offs with
  | nil => simp [bucketPairs]
  | cons d rest ih =>
      simp only [bucketPairs, List.flatMap_cons, List.map_append,
        List.sum_append, List.map_map] at ih ⊢
      rw [ih]
      have hinner : ((hs.map (fun h => ((stAbs + d, h), c))).map
          (fun p => p.2)).sum = c * hs.length := by
        simp [List.map_map, Function.comp_def, List.map_const']
        ring
      simp only [List.map_map] at hinner
      rw [hinner]
      simp only [List.length_cons]
      push_cast
      ring

/-- Under distinct keys the weight table is the bucket list with each
weight replaced by its ceiling share of the total. -/
lemma weightTable_bucketPairs_eq (stAbs : Nat) (offs aHours : List Nat)
    (w : Nat → Nat → Nat) (T : Int) (hoffs : offs.Nodup)
    (hhs : aHours.Nodup) :
    weightTable (bucketPairs stAbs offs aHours w) T
      = bucketPairs stAbs offs aHours
          (fun d h => ceilShare (w d h)
            (((bucketPairs stAbs offs aHours w).map (fun p => p.2)).sum) T) := by
  unfold weightTable
  dsimp only
  rw [bucketPairs_map_values stAbs offs aHours w
    (fun v => ceilShare v
      ((List.map (fun p => p.2) (bucketPairs stAbs offs aHours w)).sum) T)]
  exact dictOf_eq_self _ (bucketPairs_keys_nodup _ _ _ _ hoffs hhs)

lemma bucketPairs_length {α : Type} (stAbs : Nat) (offs hs : List Nat)
    (f : Nat → Nat → α) :
    (bucketPairs stAbs offs hs f).length = offs.length * hs.length := by
  induction offs with
  | nil => simp [bucketPairs]
  | cons d rest ih =>
      simp only [bucketPairs, List.flatMap_cons, List.length_append,
        List.length_map, List.length_cons] at ih ⊢
      rw [ih, Nat.succ_mul, Nat.add_comm]

lemma buildTable_even (tv : Targets) (stAbs nDays : Nat)
    (aDays aHours : List Nat) (rng : Nat → Nat) :
    buildTable "even" tv stAbs nDays aDays aHours rng
      = dictOf (evenPairs stAbs nDays aDays aHours tv.hourly) := rfl

lemma buildTable_front (tv : Targets) (stAbs nDays : Nat)
    (aDays aHours : List Nat) (rng : Nat → Nat) :
    buildTable "frontloaded" tv stAbs nDays aDays aHours rng
      = weightTable (frontWeights stAbs nDays aDays aHours
          ((activeOffsets stAbs nDays aDays).length * aHours.length))
          tv.total := rfl

lemma buildTable_back (tv : Targets) (stAbs nDays : Nat)
    (aDays aHours : List Nat) (rng : Nat → Nat) :
    buildTable "backloaded" tv stAbs nDays aDays aHours rng
      = weightTable (backWeights stAbs nDays aDays aHours) tv.total := rfl

/-- First versus last bucket of a weight table, for any value relation `S`
compatible with the bucket-index order of the weights. -/
lemma weightTable_head_last (stAbs : Nat) (offs aHours : List Nat)
    (w : Nat → Nat → Nat) (T : Int) (S : Int → Int → Prop)
    (hoffs : offs.Pairwise (· < ·)) (hsort : aHours.Pairwise (· < ·))
    (h24 : ∀ h ∈ aHours, h < 24)
    (hS : ∀ (W : Nat) (d₁ h₁ d₂ h₂ : Nat), h₁ ∈ aHours → h₂ ∈ aHours →
      d₁ * 24 + h₁ < d₂ * 24 + h₂ →
      S (ceilShare (w d₁ h₁) W T) (ceilShare (w d₂ h₂) W T))
    (hlen : 1 < (weightTable (bucketPairs stAbs offs aHours w) T).length)
    {p q : HourKey × Int}
    (hp : (weightTable (bucketPairs stAbs offs aHours w) T).head? = some p)
    (hq : (weightTable (bucketPairs stAbs offs aHours w) T).getLast? = some q) :
    S p.2 q.2 := by
  have hnd : aHours.Nodup := hsort.imp Nat.ne_of_lt
  have hoffsnd : offs.Nodup := hoffs.imp Nat.ne_of_lt
  rw [weightTable_bucketPairs_eq _ _ _ _ _ hoffsnd hnd] at hlen hp hq
  have hpw := bucketPairs_pairwise stAbs offs aHours
    (fun d h => ceilShare (w d h)
      (((bucketPairs stAbs offs aHours w).map (fun p => p.2)).sum) T)
    S hoffs hsort h24
    (fun d₁ h₁ d₂ h₂ hm₁ hm₂ hidx => by
      exact hS _ d₁ h₁ d₂ h₂ hm₁ hm₂ hidx)
  exact rel_head_getLast hpw hlen hp hq

/-- C6 counterexample: the claim asserts that in frontloaded mode the first
bucket's target is ≥ the last bucket's target whenever more than one bucket
exists.  At the concrete configuration `unsortedFrontSched` — a one-day
frontloaded campaign whose active-hours list is `[23, 0]` — the first table
bucket (hour 23, weight `max(1, 2-23) = 1`) gets target 10 while the last
bucket (hour 0, weight 2) gets target 20, so the first is strictly smaller
than the last. -/
theorem c6_counterexample :
    unsortedFrontSched.schedule_mode = "frontloaded" ∧
    unsortedFrontSched.hourly_targets.length = 2 ∧
    unsortedFrontSched.hourly_targets.head? = some ((0, 23), 10) ∧
    unsortedFrontSched.hourly_targets.getLast? = some ((0, 0), 20) ∧
    (10 : Int) < 20 := by
  decide

/-- C6 amended: after `calculate_schedule`, provided the active-hours list
is strictly increasing with entries below 24: in even mode the table has one
entry per active bucket and the sum of all bucket targets equals the hourly
target times the number of active buckets; in frontloaded (resp.
backloaded) mode, for a non-negative total target and more than one bucket,
the first bucket's target is ≥ (resp. ≤) the last bucket's target. -/
theorem c6_amended (s : Scheduler) (now me : DateTime) (rng : Nat → Nat)
    (hsort : s.active_hours.Pairwise (· < ·))
    (h24 : ∀ h ∈ s.active_hours, h < 24) :
    (s.schedule_mode = "even" →
      let st := s.start_date.getD now
      let en := s.end_date.getD me
      let nDays := (daysBetween en st + 1).toNat
      let adc := (activeOffsets st.absDay nDays s.active_days).length
      (calculate_schedule s now me rng).hourly_targets.length
          = adc * s.active_hours.length ∧
      ((calculate_schedule s now me rng).hourly_targets.map
          (fun p => p.2)).sum
        = (calculate_schedule s now me rng).targets.hourly
            * (adc * s.active_hours.length)) ∧
    (s.schedule_mode = "frontloaded" →
      0 ≤ (calculate_schedule s now me rng).targets.total →
      1 < (calculate_schedule s now me rng).hourly_targets.length →
      ∀ p q,
        (calculate_schedule s now me rng).hourly_targets.head? = some p →
        (calculate_schedule s now me rng).hourly_targets.getLast? = some q →
        q.2 ≤ p.2) ∧
    (s.schedule_mode = "backloaded" →
      0 ≤ (calculate_schedule s now me rng).targets.total →
      1 < (calculate_schedule s now me rng).hourly_targets.length →
      ∀ p q,
        (calculate_schedule s now me rng).hourly_targets.head? = some p →
        (calculate_schedule s now me rng).hourly_targets.getLast? = some q →
        p.2 ≤ q.2) := by
  have hnd : s.active_hours.Nodup := hsort.imp Nat.ne_of_lt
  refine ⟨?_, ?_, ?_⟩
  · intro hmode st en nDays adc
    have hoffs := activeOffsets_nodup st.absDay nDays s.active_days
    have htab : (calculate_schedule s now me rng).hourly_targets
        = bucketPairs st.absDay (activeOffsets st.absDay nDays s.active_days)
            s.active_hours
            (fun _ _ => (calculate_schedule s now me rng).targets.hourly) := by
      have h0 : (calculate_schedule s now me rng).hourly_targets
          = buildTable s.schedule_mode
              (calculate_schedule s now me rng).targets
              st.absDay nDays s.active_days s.active_hours rng := rfl
      rw [h0, hmode, buildTable_even]
      simp only [evenPairs]
      exact dictOf_eq_self _ (bucketPairs_keys_nodup _ _ _ _ hoffs hnd)
    constructor
    · rw [htab, bucketPairs_length]
    · rw [htab, sum_map_snd_bucketPairs_const]
  · intro hmode hT hlen p q hp hq
    have h0 : (calculate_schedule s now me rng).hourly_targets
        = buildTable s.schedule_mode
            (calculate_schedule s now me rng).targets
            ((s.start_date.getD now).absDay)
            (daysBetween (s.end_date.getD me) (s.start_date.getD now) + 1).toNat
            s.active_days s.active_hours rng := rfl
    rw [hmode, buildTable_front] at h0
    simp only [frontWeights] at h0
    rw [h0] at hlen hp hq
    refine weightTable_head_last _ _ _ _ _ (fun a b : Int => b ≤ a)
      (activeOffsets_pairwise _ _ _) hsort h24 ?_ hlen hp hq
    intro W d₁ h₁ d₂ h₂ _ _ hidx
    exact ceilShare_mono
      (max_le_max (le_refl 1) (Nat.sub_le_sub_left (Nat.le_of_lt hidx) _)) hT
  · intro hmode hT hlen p q hp hq
    have h0 : (calculate_schedule s now me rng).hourly_targets
        = buildTable s.schedule_mode
            (calculate_schedule s now me rng).targets
            ((s.start_date.getD now).absDay)
            (daysBetween (s.end_date.getD me) (s.start_date.getD now) + 1).toNat
            s.active_days s.active_hours rng := rfl
    rw [hmode, buildTable_back] at h0
    simp only [backWeights] at h0
    rw [h0] at hlen hp hq
    refine weightTable_head_last _ _ _ _ _ (fun a b : Int => a ≤ b)
      (activeOffsets_pairwise _ _ _) hsort h24 ?_ hlen hp hq
    intro W d₁ h₁ d₂ h₂ _ _ hidx
    exact ceilShare_mono (by omega) hT

/-- Witness for C6 at a concrete input: a one-day frontloaded campaign with
active hours `[0, 1]` yields first bucket 20 and last bucket 10, and the
first-≥-last conclusion applies. -/
theorem c6_witness :
    (((0, 1), (10 : Int)) : HourKey × Int).2
      ≤ (((0, 0), (20 : Int)) : HourKey × Int).2 :=
  (c6_amended frontSortedSched dt0h0 dt0end rng0
      (by decide) (by decide)).2.1
    (by decide) (by decide) (by decide) ((0, 0), 20) ((0, 1), 10)
    (by decide) (by decide)

end Traffic
